import Mathlib

/-!
Shallow embedding of the `llmclient` Go library (evgensoft/llmclient):
the retry-and-backoff `Chat` loop (`client.go`, `types.go`) and the
reflection-driven JSON-schema generator (`schema.go`), together with
theorems settling the specification claims.

Conventions of the embedding:
* Go `(value, error)` returns become `Except GoError _`.
* The network is modelled by an environment `env : Nat → Step` giving, for
  each attempt index, whether the caller's context is already done at that
  attempt's backoff wait, and the outcome `http.Client.Do` would produce.
* `Chat` additionally returns the number of network calls performed
  (`doRequest` invocations), so that attempt-count claims are statable.
* Machine integers are modelled as `Int`/`Nat` with explicit wrapping where
  overflow matters (the `time.Duration` backoff arithmetic).
* The schema generator can panic in Go (a failing single-value type
  assertion); its model therefore returns an `Option`, where `none` means
  the call panics and never returns.
-/

set_option autoImplicit false

namespace LLMClient

/-! ## Data model (types.go) -/

/-- Model of `Message` from types.go: a chat message with a role and content. -/
structure Message where
  role : String
  content : String
  deriving Repr

/-- Model of `Usage` from types.go: token counters (Go `int`, trusted from server). -/
structure Usage where
  promptTokens : Int
  completionTokens : Int
  totalTokens : Int
  deriving Repr

/-- Model of `Choice` from types.go: one candidate answer. -/
structure Choice where
  message : Message
  finishReason : String
  deriving Repr

/-- Model of `ChatResponse` from types.go. -/
structure ChatResponse where
  choices : List Choice
  usage : Usage
  deriving Repr

/-! ## Schema values (the `map[string]interface{}` nodes built by schema.go)

A schema node built by the generator only ever carries the keys
`type`, `properties`, `items`, `required`, `description`; we model the
Go map as a record of those keys (`none` = key absent).  `properties`
is a Go map; we model it as an association list written in insertion
order, with insert-or-overwrite update mirroring Go map assignment. -/

/-- A JSON-schema node as built by schema.go (`map[string]interface{}`
restricted to the keys the generator actually writes). -/
inductive Schema where
  | mk (ty : String)
       (properties : Option (List (String × Schema)))
       (items : Option Schema)
       (required : Option (List String))
       (description : Option String)

/-- The `type` entry of a schema node. -/
def Schema.ty : Schema → String
  | .mk t _ _ _ _ => t

/-- The `properties` entry of a schema node (`none` when the key is absent). -/
def Schema.properties : Schema → Option (List (String × Schema))
  | .mk _ p _ _ _ => p

/-- The `items` entry of a schema node. -/
def Schema.items : Schema → Option Schema
  | .mk _ _ i _ _ => i

/-- The `required` entry of a schema node (`none` when the key is absent). -/
def Schema.required : Schema → Option (List String)
  | .mk _ _ _ r _ => r

/-- The `description` entry of a schema node. -/
def Schema.description : Schema → Option String
  | .mk _ _ _ _ d => d

/-- Setting `node["description"] = d` on a schema node. -/
def Schema.setDescription : Schema → String → Schema
  | .mk t p i r _, d => .mk t p i r (some d)

/-- Model of `ChatRequest` from types.go, restricted to the fields the verified code
reads or writes (`model`, `messages`, `json_schema`); the optional numeric
sampling parameters are never touched by the client logic and are carried
through unchanged, so they are omitted from the model. -/
structure ChatRequest where
  model : String
  messages : List Message
  jsonSchema : Option Schema

/-! ## Errors

Each constructor corresponds to one distinct error construction site in the
Go source. -/

/-- Errors produced by the schema generator (schema.go):
* `notStruct kind` — `GenerateSchema`'s "expected a struct, got `kind`";
* `unsupported kind` — `generateSchemaForType`'s default case
  ("unsupported type: `kind`");
* `fieldError name inner` — `generateObjectSchema`'s wrapping
  ("error in field `name`: `inner`"). -/
inductive SchemaError where
  | notStruct (kind : String)
  | unsupported (kind : String)
  | fieldError (name : String) (inner : SchemaError)

/-- Errors observable from the client, one constructor per construction site:
* `netErr cancel` — error returned by `httpClient.Do` in `doRequest`;
  `cancel = true` marks a cancellation-triggered transport error
  (the context was cancelled/timed out during the network call);
* `ctxError` — `ctx.Err()` returned from the backoff `select`;
* `httpStatus code` — `fmt.Errorf("HTTP %d", ...)` recorded as `lastErr`;
* `apiError status body` — `parseResponse`'s non-200 error carrying the
  status code and the body text;
* `decodeError` — `parseResponse`'s JSON decode failure;
* `noChoices` — the "no choices in response" error;
* `maxRetriesExceeded last` — `fmt.Errorf("max retries exceeded: %w", lastErr)`
  (`last = none` models a nil `lastErr`);
* `schemaGen e` — a schema-generation error surfaced by `RequestWithSchema`;
* `unmarshalError` — `json.Unmarshal` failure on the returned content. -/
inductive GoError where
  | netErr (cancel : Bool)
  | ctxError
  | httpStatus (code : Nat)
  | apiError (status : Nat) (body : String)
  | decodeError
  | noChoices
  | maxRetriesExceeded (last : Option GoError)
  | schemaGen (e : SchemaError)
  | unmarshalError

/-- Whether an error is the caller's cancellation error itself
(`ctx.Err()`, i.e. `context.Canceled` / `context.DeadlineExceeded`) or a
transport error triggered by it. -/
def GoError.isCancellation : GoError → Bool
  | .ctxError => true
  | .netErr c => c
  | _ => false

/-! ## The HTTP environment -/

/-- A raw HTTP response as seen by `Chat`: its status code, its body read as
text (for the non-200 diagnostic), and what `json.Decoder.Decode` yields on
the body (`none` = decode error). -/
structure HttpResp where
  status : Nat
  bodyText : String
  decoded : Option ChatResponse

/-- What one `doRequest` call produces: a transport error or a response. -/
inductive Outcome where
  | netErr (cancel : Bool)
  | resp (r : HttpResp)

/-- The environment of one attempt: whether the caller's context is already
done when this attempt's backoff `select` runs (raced against the timer),
and the outcome of the network call if it is reached. -/
structure Step where
  cancelBeforeWait : Bool
  outcome : Outcome

/-! ## Retry policy (types.go) -/

/-- Model of `shouldRetry` from types.go: retry on any transport error, or on HTTP
status ≥ 500 or 429.  (In Go, `resp` is dereferenced only when `err` is nil;
`Chat` never passes both nil, so the `none, none` branch is unreachable.) -/
def shouldRetry (err : Option GoError) (resp : Option HttpResp) : Bool :=
  if err.isSome then
    true
  else
    match resp with
    | some r => decide (500 ≤ r.status) || decide (r.status == 429)
    | none => false

/-- Wrap an integer into the `int64` range (Go two's-complement overflow). -/
def wrap64 (x : Int) : Int := (x + 2 ^ 63) % 2 ^ 64 - 2 ^ 63

/-- Model of `math.Pow(2, float64 attempt)` followed by the Go conversion
`time.Duration(·)` (i.e. `float64 → int64`).  For `attempt ≤ 62` the float
value `2^attempt` is exact and in `int64` range, so the conversion is exact;
for larger exponents the conversion is out of range and yields the amd64
result `math.MinInt64`.  All theorems below stay in the exact range. -/
def powTwoAsInt64 (attempt : Nat) : Int :=
  if attempt ≤ 62 then (2 : Int) ^ attempt else -(2 ^ 63)

/-- Model of `backoff` from types.go:
`time.Duration(math.Pow(2, float64(attempt))) * time.Second`, in
nanoseconds, with `int64` wrap-around on the multiplication. -/
def backoff (attempt : Nat) : Int :=
  wrap64 (powTwoAsInt64 attempt * 1000000000)

/-! ## Response parsing (client.go `parseResponse`) -/

/-- Model of `parseResponse` from client.go: non-200 statuses become an error carrying
the status and the body text; a 200 body that fails to decode is a decode
error; a decoded response with zero choices is the "no choices" error;
otherwise the decoded response is returned. -/
def parseResponse (resp : HttpResp) : Except GoError ChatResponse :=
  if resp.status ≠ 200 then
    .error (.apiError resp.status resp.bodyText)
  else
    match resp.decoded with
    | none => .error .decodeError
    | some result =>
      if result.choices.length == 0 then
        .error .noChoices
      else
        .ok result

/-! ## The retry loop (client.go `Chat`) -/

/-- The body of `Chat`'s `for attempt := 0; attempt <= c.maxRetries` loop.
`attempt` is the Go loop variable, `remaining` the number of iterations left
(`maxRetries + 1 - attempt`), `lastErr` the recorded cause.  Returns the
loop's result together with the number of `doRequest` network calls made
from this point on.  Mirrors client.go lines 68–95:
* `attempt > 0`: `select` on `ctx.Done()` versus the backoff timer;
* transport error: record it; return it if `shouldRetry` says not to retry
  (dead in practice, since `shouldRetry` retries every transport error);
* non-retryable status: `parseResponse` and return;
* retryable status: record `fmt.Errorf("HTTP %d", status)` and continue;
* loop exhausted: `max retries exceeded` wrapping `lastErr`. -/
def chatGo (env : Nat → Step) : Nat → Nat → Option GoError →
    Except GoError ChatResponse × Nat
  | _, 0, last => (.error (.maxRetriesExceeded last), 0)
  | attempt, remaining + 1, _ =>
    if attempt > 0 && (env attempt).cancelBeforeWait then
      (.error .ctxError, 0)
    else
      match (env attempt).outcome with
      | .netErr c =>
        if !shouldRetry (some (.netErr c)) none then
          (.error (.netErr c), 1)
        else
          let t := chatGo env (attempt + 1) remaining (some (.netErr c))
          (t.1, t.2 + 1)
      | .resp r =>
        if !shouldRetry none (some r) then
          (parseResponse r, 1)
        else
          let t := chatGo env (attempt + 1) remaining (some (.httpStatus r.status))
          (t.1, t.2 + 1)

/-- Model of `Client` from client.go: configuration fixed at construction.
(The pluggable HTTP transport is the environment `env` in this model.) -/
structure Client where
  baseURL : String
  apiKey : String
  model : String
  maxRetries : Int

/-- Functional options (options.go).  `WithHttpClient` only swaps the
transport handle, which the model represents by the environment, so only
`WithMaxRetries` carries model-visible state. -/
inductive COption where
  | withMaxRetries (n : Int)

/-- Applying one option to a client (options.go). -/
def applyOption (c : Client) : COption → Client
  | .withMaxRetries n => { c with maxRetries := n }

/-- Model of `NewClient` from client.go: defaults (`maxRetries = 3`) then the options
applied in order. -/
def NewClient (baseURL apiKey model : String) (opts : List COption) : Client :=
  opts.foldl applyOption
    { baseURL := baseURL, apiKey := apiKey, model := model, maxRetries := 3 }

/-- Client.go lines 64–66: the request actually sent over the wire — the
caller's request with the client's default model substituted when the
caller's `Model` is empty.  The substitution happens once, before the loop;
every attempt sends this same request. -/
def wireRequest (c : Client) (req : ChatRequest) : ChatRequest :=
  if req.model = "" then { req with model := c.model } else req

/-- Model of `Chat` from client.go.  The environment may depend on the request sent
over the wire (which is `wireRequest c req` for every attempt).  Returns the
Go result together with the number of network calls performed. -/
def Chat (c : Client) (env : ChatRequest → Nat → Step) (req : ChatRequest) :
    Except GoError ChatResponse × Nat :=
  chatGo (env (wireRequest c req)) 0 (c.maxRetries + 1).toNat none

/-! ## SimpleRequest (client.go) -/

/-- Client.go lines 100–106: the messages built by `SimpleRequest` — an
optional leading system message (only when `systemPrompt` is non-empty)
followed by the user message. -/
def simpleMessages (systemPrompt userPrompt : String) : List Message :=
  (if systemPrompt ≠ "" then [{ role := "system", content := systemPrompt }] else [])
    ++ [{ role := "user", content := userPrompt }]

/-- Model of `SimpleRequest` from client.go: build the messages, delegate to `Chat`,
then return the first choice's content or the "no choices" error. -/
def SimpleRequest (c : Client) (env : ChatRequest → Nat → Step)
    (systemPrompt userPrompt : String) : Except GoError String × Nat :=
  let req : ChatRequest :=
    { model := "", messages := simpleMessages systemPrompt userPrompt, jsonSchema := none }
  match Chat c env req with
  | (.error e, n) => (.error e, n)
  | (.ok resp, n) =>
    match resp.choices with
    | [] => (.error .noChoices, n)
    | ch :: _ => (.ok ch.message.content, n)

/-! ## Reflected Go types (the `reflect.Type` values schema.go walks)

`intT` stands for all of Go's integer kinds (`Int`…`Uint64`), which
schema.go treats identically; `floatT` for both float kinds.  `mapT`,
`funcT`, `chanT`, `interfaceT` are the unsupported kinds the claims
mention. -/

mutual
/-- A reflected Go type, by kind, as far as schema.go inspects it. -/
inductive GoType where
  | stringT
  | intT
  | floatT
  | boolT
  | ptrT (elem : GoType)
  | sliceT (elem : GoType)
  | structT (fields : List GoField)
  | mapT
  | funcT
  | chanT
  | interfaceT

/-- A reflected struct field: its Go name, whether it is exported, whether
it is embedded (anonymous), its `json` tag, its `schema` tag, its type. -/
inductive GoField where
  | mk (name : String) (exported : Bool) (anonymous : Bool)
       (jsonTag : String) (schemaTag : String) (ty : GoType)
end

/-- The field's Go name. -/
def GoField.name : GoField → String
  | .mk n _ _ _ _ _ => n

/-- Whether the field is exported (`field.IsExported()`). -/
def GoField.exported : GoField → Bool
  | .mk _ e _ _ _ _ => e

/-- Whether the field is embedded (`field.Anonymous`). -/
def GoField.anonymous : GoField → Bool
  | .mk _ _ a _ _ _ => a

/-- The raw `json` tag (`field.Tag.Get`), empty when absent. -/
def GoField.jsonTag : GoField → String
  | .mk _ _ _ j _ _ => j

/-- The raw `schema` tag (`field.Tag.Get`), empty when absent. -/
def GoField.schemaTag : GoField → String
  | .mk _ _ _ _ s _ => s

/-- The field's type. -/
def GoField.ty : GoField → GoType
  | .mk _ _ _ _ _ t => t

/-- The kind's name (`t.Kind().String()`) for the kinds the model distinguishes. -/
def kindName : GoType → String
  | .stringT => "string"
  | .intT => "int"
  | .floatT => "float64"
  | .boolT => "bool"
  | .ptrT _ => "ptr"
  | .sliceT _ => "slice"
  | .structT _ => "struct"
  | .mapT => "map"
  | .funcT => "func"
  | .chanT => "chan"
  | .interfaceT => "interface"

/-! ## Tag parsing (`strings.Split` / `strings.HasPrefix` modelled on
character lists so everything evaluates in the kernel) -/

/-- Model of `strings.Split` on a single separator character:
`splitOnChar sep s` never returns the empty list, and splitting the empty
string gives `[[]]`, matching Go. -/
def splitOnChar (sep : Char) : List Char → List (List Char)
  | [] => [[]]
  | c :: rest =>
    let r := splitOnChar sep rest
    if c = sep then
      [] :: r
    else
      match r with
      | [] => [[c]]
      | g :: gs => (c :: g) :: gs

/-- The tag split on commas (`strings.Split(tag, ",")`). -/
def tagParts (tag : String) : List String :=
  (splitOnChar ',' tag.data).map (fun cs => ⟨cs⟩)

/-- Schema.go lines 95–99: the field's external name — the first
comma-separated segment of the `json` tag, falling back to the Go field
name when that segment is empty. -/
def tagName (tag fieldName : String) : String :=
  match tagParts tag with
  | [] => fieldName
  | p :: _ => if p = "" then fieldName else p

/-- Schema.go lines 101–108: whether the `json` tag's trailing options
(`parts[1:]`) contain `omitempty`. -/
def tagHasOmitempty (tag : String) : Bool :=
  match tagParts tag with
  | [] => false
  | _ :: rest => rest.any (fun part => part == "omitempty")

/-- Model of the `strings.HasPrefix`-then-`TrimPrefix` pair: `some rest` when the first list
is a leading segment of the second, with `rest` what follows it. -/
def dropLeading : List Char → List Char → Option (List Char)
  | [], rest => some rest
  | _ :: _, [] => none
  | p :: ps, c :: cs => if c = p then dropLeading ps cs else none

/-- The search loop of `parseSchemaTag`: first `;`-part starting with
`key=`, with that marker removed; `""` when none matches. -/
def findTagValue (marker : List Char) : List (List Char) → String
  | [] => ""
  | part :: rest =>
    match dropLeading marker part with
    | some suffix => ⟨suffix⟩
    | none => findTagValue marker rest

/-- Model of `parseSchemaTag` from schema.go: split the `schema` tag on `;` and
return what follows `key=` in the first part carrying that marker. -/
def parseSchemaTag (tag key : String) : String :=
  findTagValue (key.data ++ ['=']) (splitOnChar ';' tag.data)

/-- Go map assignment `m[k] = v` on the association-list model of
`properties`: overwrite the entry for `k` in place, or append a new one. -/
def upsert (k : String) (v : Schema) : List (String × Schema) → List (String × Schema)
  | [] => [(k, v)]
  | (k', v') :: rest => if k' = k then (k, v) :: rest else (k', v') :: upsert k v rest

/-! ## The schema generator (schema.go) -/

mutual
/-- Model of `generateSchemaForType` from schema.go: the kind-directed recursive
transform.  Structs go to `generateObjectSchema`; slices/arrays recurse on
the element type under an `array` node; string/integer/float/bool kinds map
to leaf nodes; pointers are dereferenced; every other kind (map, func,
chan, interface) is an `unsupported` error naming the kind.  A result of
`none` models a panic propagating out of the call (possible only through
a struct's embedded-field merge, see `genFields`); `some` carries the Go
`(schema, error)` return. -/
def generateSchemaForType : GoType → Option (Except SchemaError Schema)
  | .structT fs => generateObjectSchema fs
  | .sliceT e =>
    match generateSchemaForType e with
    | none => none
    | some (.error err) => some (.error err)
    | some (.ok es) => some (.ok (.mk "array" none (some es) none none))
  | .stringT => some (.ok (.mk "string" none none none none))
  | .intT => some (.ok (.mk "integer" none none none none))
  | .floatT => some (.ok (.mk "number" none none none none))
  | .boolT => some (.ok (.mk "boolean" none none none none))
  | .ptrT e => generateSchemaForType e
  | t => some (.error (.unsupported (kindName t)))

/-- Model of `generateObjectSchema` from schema.go: run the field loop with empty
accumulators, then build the object node, attaching `required` only when
the collected list is non-empty (schema.go lines 129–131); a panic in the
field loop propagates. -/
def generateObjectSchema (fs : List GoField) : Option (Except SchemaError Schema) :=
  match genFields fs [] [] with
  | none => none
  | some (.error e) => some (.error e)
  | some (.ok (props, reqs)) =>
    some (.ok (.mk "object" (some props) none
      (if reqs.length > 0 then some reqs else none) none))

/-- The field loop of `generateObjectSchema` (schema.go lines 63–127), with
`props`/`reqs` the `properties` map and `requiredFields` accumulators:
* unexported fields are skipped;
* embedded (anonymous) fields have their schema generated recursively and
  merged: errors are returned unwrapped; the `properties` merge uses the
  single-value type assertion `embeddedSchema["properties"].(map[string]interface{})`,
  which PANICS when the embedded schema has no `properties` key (any
  embedded field of non-struct kind) — modelled as `none`; the `required`
  merge uses the comma-ok form, so an absent `required` key merges as
  empty;
* fields tagged `json:"-"` are skipped;
* otherwise the external name and optionality come from the `json` tag, the
  name is appended to `requiredFields` unless `omitempty` is present, the
  field type's schema is generated (errors wrapped with the Go field name),
  a `description` from the `schema` tag is attached when present, and the
  node is stored under the external name. -/
def genFields : List GoField → List (String × Schema) → List String →
    Option (Except SchemaError (List (String × Schema) × List String))
  | [], props, reqs => some (.ok (props, reqs))
  | .mk name exported anonymous jsonTag schemaTag ty :: rest, props, reqs =>
    if !exported then
      genFields rest props reqs
    else if anonymous then
      match generateSchemaForType ty with
      | none => none
      | some (.error e) => some (.error e)
      | some (.ok es) =>
        match es.properties with
        | none => none
        | some ps =>
          genFields rest
            (ps.foldl (fun acc kv => upsert kv.1 kv.2 acc) props)
            (reqs ++ es.required.getD [])
    else if jsonTag = "-" then
      genFields rest props reqs
    else
      let jsonName := tagName jsonTag name
      let reqs' := if tagHasOmitempty jsonTag then reqs else reqs ++ [jsonName]
      match generateSchemaForType ty with
      | none => none
      | some (.error e) => some (.error (.fieldError name e))
      | some (.ok propSchema) =>
        let propSchema' :=
          match parseSchemaTag schemaTag "description" with
          | "" => propSchema
          | d => propSchema.setDescription d
        genFields rest (upsert jsonName propSchema' props) reqs'
end

/-- Strip at most one top-level pointer (schema.go lines 15–17). -/
def derefOnce : GoType → GoType
  | .ptrT e => e
  | t => t

/-- Model of `GenerateSchema` from schema.go, the public entry point: dereference at
most one top-level pointer, reject anything that is not a struct with the
"expected a struct" error, otherwise run the recursive generation.  (In Go
it takes an instance and applies `reflect.TypeOf`; the model takes the
reflected type directly.) -/
def GenerateSchema (t : GoType) : Option (Except SchemaError Schema) :=
  let t' := derefOnce t
  match t' with
  | .structT fs => generateSchemaForType (.structT fs)
  | other => some (.error (.notStruct (kindName other)))

/-- Model of `RequestWithSchema` from client.go: generate the schema (returning its
error before any network call on failure; a generation panic propagates,
crashing before any network call), send a two-message request
(system message always included) with the schema attached, then require at
least one choice and unmarshal the first choice's content into the target.
`unmarshalOk content` models whether `json.Unmarshal(content, target)`
succeeds (the populated target value itself is not tracked). -/
def RequestWithSchema (c : Client) (env : ChatRequest → Nat → Step)
    (systemPrompt userPrompt : String) (target : GoType)
    (unmarshalOk : String → Bool) : Option (Except GoError Unit × Nat) :=
  match GenerateSchema target with
  | none => none
  | some (.error e) => some (.error (.schemaGen e), 0)
  | some (.ok js) =>
    let req : ChatRequest :=
      { model := "",
        messages := [{ role := "system", content := systemPrompt },
                     { role := "user", content := userPrompt }],
        jsonSchema := some js }
    match Chat c env req with
    | (.error e, n) => some (.error e, n)
    | (.ok resp, n) =>
      match resp.choices with
      | [] => some (.error .noChoices, n)
      | ch :: _ =>
        if unmarshalOk ch.message.content then some (.ok (), n)
        else some (.error .unmarshalError, n)

end LLMClient

namespace LLMClient

/-- Whether `Chat` treats an attempt's outcome as retryable. -/
def retryableOutcome : Outcome → Bool
  | .netErr c => shouldRetry (some (.netErr c)) none
  | .resp r => shouldRetry none (some r)

/-- The error `Chat` records in `lastErr` for a retryable outcome. -/
def causeOf : Outcome → GoError
  | .netErr c => .netErr c
  | .resp r => .httpStatus r.status

/-- Skipping a prefix of retryable, non-cancelled attempts: the loop reaches
attempt `a + k` with the last retryable cause recorded, having made `k`
network calls on the way. -/
theorem chatGo_skip (env : Nat → Step) :
    ∀ (k a n : Nat) (lastErr : Option GoError),
    k ≤ n →
    (∀ i, i < k → (env (a + i)).cancelBeforeWait = false ∧
      retryableOutcome (env (a + i)).outcome = true) →
    chatGo env a n lastErr =
      ((chatGo env (a + k) (n - k)
          (if k = 0 then lastErr else some (causeOf (env (a + k - 1)).outcome))).1,
       (chatGo env (a + k) (n - k)
          (if k = 0 then lastErr else some (causeOf (env (a + k - 1)).outcome))).2 + k) := by
  intro k
  induction k with
  | zero => intro a n lastErr _ _; simp
  | succ k ih =>
    intro a n lastErr hkn hpre
    obtain ⟨m, rfl⟩ : ∃ m, n = m + 1 := ⟨n - 1, by omega⟩
    obtain ⟨hc0, hr0⟩ := hpre 0 (Nat.succ_pos k)
    simp only [Nat.add_zero] at hc0 hr0
    have hpre' : ∀ i, i < k → (env (a + 1 + i)).cancelBeforeWait = false ∧
        retryableOutcome (env (a + 1 + i)).outcome = true := by
      intro i hi
      have := hpre (i + 1) (by omega)
      simpa [Nat.add_assoc, Nat.add_comm 1 i] using this
    cases ho : (env a).outcome with
    | netErr c =>
      have hstep : chatGo env a (m + 1) lastErr =
          ((chatGo env (a + 1) m (some (.netErr c))).1,
           (chatGo env (a + 1) m (some (.netErr c))).2 + 1) := by
        simp [chatGo, hc0, ho, shouldRetry]
      rw [hstep, ih (a + 1) m (some (.netErr c)) (by omega) hpre']
      rcases Nat.eq_zero_or_pos k with hk | hk
      · subst hk
        simp [ho, causeOf]
      · have h1 : a + 1 + k - 1 = a + (k + 1) - 1 := by omega
        have h2 : a + 1 + k = a + (k + 1) := by omega
        have h3 : m - k = m + 1 - (k + 1) := by omega
        simp only [h1, h2, h3, if_neg (by omega : ¬ k = 0), if_neg (by omega : ¬ k + 1 = 0)]
        simp [Nat.add_assoc]
    | resp r =>
      have hsr : shouldRetry none (some r) = true := by
        have := hr0; rw [ho] at this; simpa [retryableOutcome] using this
      have hstep : chatGo env a (m + 1) lastErr =
          ((chatGo env (a + 1) m (some (.httpStatus r.status))).1,
           (chatGo env (a + 1) m (some (.httpStatus r.status))).2 + 1) := by
        simp [chatGo, hc0, ho, hsr]
      rw [hstep, ih (a + 1) m (some (.httpStatus r.status)) (by omega) hpre']
      rcases Nat.eq_zero_or_pos k with hk | hk
      · subst hk
        simp [ho, causeOf]
      · have h1 : a + 1 + k - 1 = a + (k + 1) - 1 := by omega
        have h2 : a + 1 + k = a + (k + 1) := by omega
        have h3 : m - k = m + 1 - (k + 1) := by omega
        simp only [h1, h2, h3, if_neg (by omega : ¬ k = 0), if_neg (by omega : ¬ k + 1 = 0)]
        simp [Nat.add_assoc]


/-- A retryable HTTP status in the sense of the claims: 429 or 5xx. -/
def claimRetryableStatus (s : Nat) : Prop := s = 429 ∨ (500 ≤ s ∧ s ≤ 599)

/-- C2: for every `k ≤ maxRetries`, if the first `k` attempts yield 429/5xx
and the next yields 200 with a valid non-empty-choices body, `Chat` succeeds
after exactly `k + 1` network calls; and if every attempt yields 429/5xx
with retry budget `M`, `Chat` makes exactly `M + 1` calls and returns a
max-retries-exceeded error wrapping the last recorded cause. -/
theorem chat_attempt_counts (c : Client) (env : ChatRequest → Nat → Step)
    (req : ChatRequest) (M : Nat) (hM : c.maxRetries = (M : Int)) :
    (∀ (k : Nat) (r : ChatResponse) (body : HttpResp), k ≤ M →
      (∀ i, i < k → (env (wireRequest c req) i).cancelBeforeWait = false ∧
        ∃ resp : HttpResp, (env (wireRequest c req) i).outcome = .resp resp ∧
          claimRetryableStatus resp.status) →
      (env (wireRequest c req) k).cancelBeforeWait = false →
      (env (wireRequest c req) k).outcome = .resp body →
      body.status = 200 → body.decoded = some r → r.choices ≠ [] →
      Chat c env req = (.ok r, k + 1)) ∧
    ((∀ i, i ≤ M → (env (wireRequest c req) i).cancelBeforeWait = false ∧
        ∃ resp : HttpResp, (env (wireRequest c req) i).outcome = .resp resp ∧
          claimRetryableStatus resp.status) →
      ∀ body : HttpResp, (env (wireRequest c req) M).outcome = .resp body →
      Chat c env req = (.error (.maxRetriesExceeded (some (.httpStatus body.status))), M + 1)) := by
  set e := env (wireRequest c req) with he
  have hN : (c.maxRetries + 1).toNat = M + 1 := by rw [hM]; omega
  have hchat : Chat c env req = chatGo e 0 (M + 1) none := by
    rw [Chat, ← he, hN]
  constructor
  · intro k r body hk hpre hck hok h200 hdec hch
    have hretry : ∀ i, i < k → (e (0 + i)).cancelBeforeWait = false ∧
        retryableOutcome (e (0 + i)).outcome = true := by
      intro i hi
      obtain ⟨h1, resp, h2, h3⟩ := hpre i hi
      rw [Nat.zero_add]
      refine ⟨h1, ?_⟩
      rw [h2]
      rcases h3 with h | ⟨h, _⟩ <;> simp [retryableOutcome, shouldRetry, h]
    have hskip := chatGo_skip e k 0 (M + 1) none (by omega) hretry
    simp only [Nat.zero_add] at hskip
    obtain ⟨m, hm⟩ : ∃ m, M + 1 - k = m + 1 := ⟨M - k, by omega⟩
    have hT : chatGo e k (M + 1 - k)
        (if k = 0 then none else some (causeOf (e (k - 1)).outcome)) =
        (parseResponse body, 1) := by
      rw [hm, chatGo]
      simp [hck, hok, shouldRetry, h200]
    have hP : parseResponse body = .ok r := by
      simp [parseResponse, h200, hdec, hch]
    rw [hchat, hskip, hT, hP]
    simp [Nat.add_comm]
  · intro hall body hbody
    have hretry : ∀ i, i < M + 1 → (e (0 + i)).cancelBeforeWait = false ∧
        retryableOutcome (e (0 + i)).outcome = true := by
      intro i hi
      obtain ⟨h1, resp, h2, h3⟩ := hall i (by omega)
      rw [Nat.zero_add]
      refine ⟨h1, ?_⟩
      rw [h2]
      rcases h3 with h | ⟨h, _⟩ <;> simp [retryableOutcome, shouldRetry, h]
    have hskip := chatGo_skip e (M + 1) 0 (M + 1) none (by omega) hretry
    simp only [Nat.zero_add, Nat.sub_self, Nat.add_sub_cancel] at hskip
    rw [hchat, hskip]
    simp [chatGo, hbody, causeOf]



/-- C1 (amended): a cancellation-triggered transport error is classified
retryable by `shouldRetry` and recorded as the last error; when a retry
attempt remains (`k < maxRetries`), `Chat` then returns the context's own
error (`ctx.Err()`) at the top of the next iteration, without performing a
further network call.  (When the cancellation hits the final attempt the
error is instead wrapped in max-retries-exceeded — see the
counterexample.) -/
theorem chat_cancellation_amended (c : Client) (env : ChatRequest → Nat → Step)
    (req : ChatRequest) (M k : Nat) (hM : c.maxRetries = (M : Int)) (hk : k < M)
    (hpre : ∀ i, i < k → (env (wireRequest c req) i).cancelBeforeWait = false ∧
      retryableOutcome (env (wireRequest c req) i).outcome = true)
    (hck : (env (wireRequest c req) k).cancelBeforeWait = false)
    (hout : (env (wireRequest c req) k).outcome = .netErr true)
    (hdone : (env (wireRequest c req) (k + 1)).cancelBeforeWait = true) :
    shouldRetry (some (.netErr true)) none = true ∧
    Chat c env req = (.error .ctxError, k + 1) := by
  refine ⟨rfl, ?_⟩
  set e := env (wireRequest c req) with he
  have hN : (c.maxRetries + 1).toNat = M + 1 := by rw [hM]; omega
  have hchat : Chat c env req = chatGo e 0 (M + 1) none := by
    rw [Chat, ← he, hN]
  have hretry : ∀ i, i < k + 1 → (e (0 + i)).cancelBeforeWait = false ∧
      retryableOutcome (e (0 + i)).outcome = true := by
    intro i hi
    rw [Nat.zero_add]
    rcases Nat.lt_or_ge i k with h | h
    · exact hpre i h
    · have hik : i = k := by omega
      subst hik
      exact ⟨hck, by rw [hout]; simp [retryableOutcome, shouldRetry]⟩
  have hskip := chatGo_skip e (k + 1) 0 (M + 1) none (by omega) hretry
  simp only [Nat.zero_add] at hskip
  obtain ⟨m, hm⟩ : ∃ m, M + 1 - (k + 1) = m + 1 := ⟨M - k - 1, by omega⟩
  rw [hchat, hskip, hm, chatGo]
  simp [hdone]

/-- C4: if, on a retry attempt (`1 ≤ k ≤ maxRetries`), the caller's context
is cancelled or times out before that attempt's backoff wait completes,
`Chat` returns immediately with the context's own error and performs no
further network call (exactly `k` calls were made, all before the wait). -/
theorem chat_cancel_during_wait (c : Client) (env : ChatRequest → Nat → Step)
    (req : ChatRequest) (M k : Nat) (hM : c.maxRetries = (M : Int))
    (hk1 : 1 ≤ k) (hkM : k ≤ M)
    (hpre : ∀ i, i < k → (env (wireRequest c req) i).cancelBeforeWait = false ∧
      retryableOutcome (env (wireRequest c req) i).outcome = true)
    (hdone : (env (wireRequest c req) k).cancelBeforeWait = true) :
    Chat c env req = (.error .ctxError, k) := by
  set e := env (wireRequest c req) with he
  have hN : (c.maxRetries + 1).toNat = M + 1 := by rw [hM]; omega
  have hchat : Chat c env req = chatGo e 0 (M + 1) none := by
    rw [Chat, ← he, hN]
  have hretry : ∀ i, i < k → (e (0 + i)).cancelBeforeWait = false ∧
      retryableOutcome (e (0 + i)).outcome = true := by
    intro i hi
    rw [Nat.zero_add]
    exact hpre i hi
  have hskip := chatGo_skip e k 0 (M + 1) none (by omega) hretry
  simp only [Nat.zero_add] at hskip
  obtain ⟨m, hm⟩ : ∃ m, M + 1 - k = m + 1 := ⟨M - k, by omega⟩
  rw [hchat, hskip, hm, chatGo]
  simp [hdone, show 0 < k from hk1]

/-- Environment of the cancellation counterexample: attempts 0–2 get
HTTP 500; during attempt 3's network call the caller's context is
cancelled, so `doRequest` fails with a cancellation-triggered transport
error (the context is still live before each backoff wait). -/
def cancelOnLastEnv : ChatRequest → Nat → Step := fun _ n =>
  if n < 3 then ⟨false, .resp ⟨500, "", none⟩⟩ else ⟨false, .netErr true⟩

/-- C1 counterexample: with the default retry budget (3), three HTTP-500
attempts followed by a cancellation-triggered network failure on the final
attempt make `Chat` return a max-retries wrapper around the cancellation
error — not the cancellation error itself, contradicting the claim that a
cancellation-failed attempt is never wrapped in a max-retries error. -/
theorem chat_cancellation_wrapped_cex :
    Chat (NewClient "https://api" "key" "model" []) cancelOnLastEnv
        { model := "", messages := [], jsonSchema := none } =
      (.error (.maxRetriesExceeded (some (.netErr true))), 4) ∧
    (GoError.maxRetriesExceeded (some (.netErr true))).isCancellation = false :=
  ⟨rfl, rfl⟩



/-- A successful choice used by concrete witnesses. -/
def okChoice : Choice :=
  { message := { role := "assistant", content := "hi" }, finishReason := "stop" }

/-- A successful response body used by concrete witnesses. -/
def okResp : ChatResponse :=
  { choices := [okChoice],
    usage := { promptTokens := 1, completionTokens := 2, totalTokens := 3 } }

/-- A 200 response decoding to `okResp`. -/
def okBody : HttpResp := ⟨200, "", some okResp⟩

/-- Witness environment: HTTP 429 on attempt 0, success afterwards. -/
def retryThenOkEnv : ChatRequest → Nat → Step := fun _ n =>
  if n = 0 then ⟨false, .resp ⟨429, "rate limited", none⟩⟩ else ⟨false, .resp okBody⟩

/-- Witness for C2: one 429 then success gives exactly two calls. -/
theorem chat_attempt_counts_witness :
    Chat (NewClient "u" "k" "m" []) retryThenOkEnv
        { model := "g", messages := [], jsonSchema := none } = (.ok okResp, 2) :=
  (chat_attempt_counts _ _ _ 3 rfl).1 1 okResp okBody (by omega)
    (fun i hi => by
      have hi0 : i = 0 := by omega
      subst hi0
      exact ⟨rfl, ⟨429, "rate limited", none⟩, rfl, Or.inl rfl⟩)
    rfl rfl rfl rfl (by simp [okResp])

/-- Witness environment: the context is cancelled during attempt 0's network
call, so attempt 0 fails with a cancellation-triggered error and the context
is observed done at attempt 1's backoff select. -/
def cancelFirstCallEnv : ChatRequest → Nat → Step := fun _ n =>
  if n = 0 then ⟨false, .netErr true⟩ else ⟨true, .netErr true⟩

/-- Witness for C1's amended theorem: cancellation during attempt 0's call
makes `Chat` return `ctx.Err()` after exactly one network call. -/
theorem chat_cancellation_amended_witness :
    shouldRetry (some (.netErr true)) none = true ∧
    Chat (NewClient "u" "k" "m" []) cancelFirstCallEnv
        { model := "g", messages := [], jsonSchema := none } = (.error .ctxError, 1) :=
  chat_cancellation_amended _ _ _ 3 0 rfl (by omega)
    (fun i hi => absurd hi (by omega)) rfl rfl rfl

/-- Witness environment: HTTP 500 on attempt 0; the context is cancelled
before attempt 1's backoff wait completes. -/
def cancelBeforeRetryEnv : ChatRequest → Nat → Step := fun _ n =>
  if n = 0 then ⟨false, .resp ⟨500, "err", none⟩⟩ else ⟨true, .netErr false⟩

/-- Witness for C4: HTTP 500 then cancellation before the first retry's
wait aborts with the context's error after one network call. -/
theorem chat_cancel_during_wait_witness :
    Chat (NewClient "u" "k" "m" []) cancelBeforeRetryEnv
        { model := "g", messages := [], jsonSchema := none } = (.error .ctxError, 1) :=
  chat_cancel_during_wait _ _ _ 3 1 rfl (by omega) (by omega)
    (fun i hi => by
      have hi0 : i = 0 := by omega
      subst hi0
      exact ⟨rfl, rfl⟩)
    rfl

/-- C3 (amended): `backoff i` equals exactly `2 ^ i` seconds (in
nanoseconds: `2 ^ i * 10 ^ 9`) and is monotonically non-decreasing — for
`i ≤ 33`, where the `int64` nanosecond arithmetic does not overflow (so in
particular `1s, 2s, 4s, 8s` for `i = 0, 1, 2, 3`).  For `i ≥ 34` the
multiplication by `time.Second` overflows `int64` — see the
counterexample. -/
theorem backoff_pow2_bounded :
    (∀ i, i ≤ 33 → backoff i = (2 : Int) ^ i * 1000000000) ∧
    (∀ i j, i ≤ j → j ≤ 33 → backoff i ≤ backoff j) := by
  have key : ∀ i, i ≤ 33 → backoff i = (2 : Int) ^ i * 1000000000 := by
    intro i hi
    have hple : (2 : Int) ^ i ≤ 2 ^ 33 := pow_le_pow_right₀ (by norm_num) hi
    have hpos : (0 : Int) < 2 ^ i := pow_pos (by norm_num) i
    rw [backoff, powTwoAsInt64, if_pos (by omega : i ≤ 62), wrap64]
    have h1 : (0 : Int) ≤ 2 ^ i * 1000000000 + 2 ^ 63 := by positivity
    have h2 : (2 : Int) ^ i * 1000000000 + 2 ^ 63 < 2 ^ 64 := by
      have hb : (2 : Int) ^ i * 1000000000 ≤ 2 ^ 33 * 1000000000 := by nlinarith
      have hval : (2 : Int) ^ 33 * 1000000000 + 2 ^ 63 < 2 ^ 64 := by norm_num
      linarith
    rw [Int.emod_eq_of_lt h1 h2]
    ring
  refine ⟨key, fun i j hij hj => ?_⟩
  rw [key i (hij.trans hj), key j hj]
  have hp : (2 : Int) ^ i ≤ 2 ^ j := pow_le_pow_right₀ (by norm_num) hij
  nlinarith

/-- C3 counterexample: at attempt index 34 the `int64` nanosecond value
`2 ^ 34 * 10 ^ 9` overflows, so `backoff 34` is not `2 ^ 34` seconds (it is
negative) and `backoff` is not monotone at `33 → 34`, contradicting the
claim's "for every attempt index i ≥ 0". -/
theorem backoff_overflow_cex :
    backoff 34 ≠ (2 : Int) ^ 34 * 1000000000 ∧ backoff 34 < backoff 33 := by
  refine ⟨?_, ?_⟩ <;> norm_num [backoff, wrap64, powTwoAsInt64]

/-- Witness for C3's amended theorem: `backoff 3` is 8 seconds. -/
theorem backoff_pow2_bounded_witness : backoff 3 = (2 : Int) ^ 3 * 1000000000 :=
  backoff_pow2_bounded.1 3 (by norm_num)

/-- C5 (amended): the request sent over the wire is the caller's request
with the client's default model substituted exactly when the caller's
`Model` is empty (a set `Model` is sent unchanged), and its model field is
non-empty provided the client's default model or the caller's model is
non-empty; every network call of `Chat` sends this `wireRequest`.  (With
both empty, an empty model is sent — see the counterexample.) -/
theorem wireRequest_model_subst (c : Client) (req : ChatRequest) :
    (req.model = "" → wireRequest c req = { req with model := c.model }) ∧
    (req.model ≠ "" → wireRequest c req = req) ∧
    (c.model ≠ "" ∨ req.model ≠ "" → (wireRequest c req).model ≠ "") ∧
    (∀ env, Chat c env req =
      chatGo (env (wireRequest c req)) 0 (c.maxRetries + 1).toNat none) := by
  refine ⟨fun h => by simp [wireRequest, h], fun h => by simp [wireRequest, h],
    ?_, fun env => rfl⟩
  intro h
  by_cases hm : req.model = ""
  · rcases h with h | h
    · simp only [wireRequest, if_pos hm]
      exact h
    · exact absurd hm h
  · simp [wireRequest, hm]

/-- C5 counterexample: a client constructed with an empty default model and
a request with empty `Model` put an empty model field on the wire,
contradicting the claim that every request sent has a non-empty model. -/
theorem wireRequest_empty_model_cex :
    (wireRequest (NewClient "https://api" "key" "" [])
        { model := "", messages := [], jsonSchema := none }).model = "" := rfl

/-- Witness for C5's amended theorem: an empty caller model is replaced by
the configured default. -/
theorem wireRequest_model_subst_witness :
    wireRequest (NewClient "u" "k" "gpt" [])
        { model := "", messages := [], jsonSchema := none } =
      { model := "gpt", messages := [], jsonSchema := none } :=
  (wireRequest_model_subst _ _).1 rfl

/-- C6: `parseResponse` returns, for non-200 statuses, an error carrying
the status code and the body text; for a 200 body that does not decode, a
decode error; for a 200 body decoding to zero choices, an error (despite
the success status); and otherwise — a 200 body decoding to a response
with at least one choice — the decoded response itself; conversely every
successful result is such a decoded response, so it always has at least
one choice. -/
theorem parseResponse_spec (resp : HttpResp) :
    (resp.status ≠ 200 → parseResponse resp = .error (.apiError resp.status resp.bodyText)) ∧
    (resp.status = 200 → resp.decoded = none → parseResponse resp = .error .decodeError) ∧
    (∀ r, resp.status = 200 → resp.decoded = some r → r.choices = [] →
      parseResponse resp = .error .noChoices) ∧
    (∀ r, resp.status = 200 → resp.decoded = some r → r.choices ≠ [] →
      parseResponse resp = .ok r) ∧
    (∀ result, parseResponse resp = .ok result →
      resp.status = 200 ∧ resp.decoded = some result ∧ result.choices ≠ []) := by
  refine ⟨fun h => by simp [parseResponse, h], fun h hd => by simp [parseResponse, h, hd],
    fun r h hd hc => by simp [parseResponse, h, hd, hc],
    fun r h hd hc => by simp [parseResponse, h, hd, List.length_eq_zero, hc], ?_⟩
  intro result h
  by_cases hs : resp.status = 200
  · cases hd : resp.decoded with
    | none =>
      rw [parseResponse, if_neg (by simp [hs]), hd] at h
      exact Except.noConfusion h
    | some r =>
      by_cases hc : r.choices.length = 0
      · have hpr : parseResponse resp = .error .noChoices := by
          simp [parseResponse, hs, hd, hc]
        rw [hpr] at h
        exact Except.noConfusion h
      · have hpr : parseResponse resp = .ok r := by
          simp [parseResponse, hs, hd, hc]
        rw [hpr] at h
        cases h
        exact ⟨hs, rfl, by simpa [List.length_eq_zero] using hc⟩
  · rw [parseResponse, if_pos hs] at h
    exact Except.noConfusion h

/-- Witness for C6: a 404 with body text becomes an API error carrying
both, and a 200 body decoding to a non-empty-choices response is returned
as the success value. -/
theorem parseResponse_spec_witness :
    parseResponse ⟨404, "not found", none⟩ = .error (.apiError 404 "not found") ∧
    parseResponse ⟨200, "", some okResp⟩ = .ok okResp :=
  ⟨(parseResponse_spec _).1 (by norm_num),
   (parseResponse_spec _).2.2.2.1 okResp rfl rfl (by simp [okResp])⟩

/-- C7: `SimpleRequest` with empty system prompt builds exactly one
message (role `user`); with a non-empty system prompt exactly two messages
in order (`system` then `user`), with the literal prompts; and on a
successful `Chat` it returns the first choice's content, or the
"no choices" error when the response has zero choices. -/
theorem simpleRequest_spec :
    (∀ userPrompt : String,
      simpleMessages "" userPrompt = [{ role := "user", content := userPrompt }]) ∧
    (∀ systemPrompt userPrompt : String, systemPrompt ≠ "" →
      simpleMessages systemPrompt userPrompt =
        [{ role := "system", content := systemPrompt },
         { role := "user", content := userPrompt }]) ∧
    (∀ (c : Client) (env : ChatRequest → Nat → Step) (systemPrompt userPrompt : String)
        (r : ChatResponse) (n : Nat),
      Chat c env { model := "", messages := simpleMessages systemPrompt userPrompt,
                   jsonSchema := none } = (.ok r, n) →
      (r.choices = [] → SimpleRequest c env systemPrompt userPrompt = (.error .noChoices, n)) ∧
      (∀ ch rest, r.choices = ch :: rest →
        SimpleRequest c env systemPrompt userPrompt = (.ok ch.message.content, n))) := by
  refine ⟨fun up => by simp [simpleMessages], fun sp up h => by simp [simpleMessages, h], ?_⟩
  intro c env sp up r n h
  constructor
  · intro hc
    simp [SimpleRequest, h, hc]
  · intro ch rest hch
    simp [SimpleRequest, h, hch]

/-- Witness environment: immediate success. -/
def okEnv : ChatRequest → Nat → Step := fun _ _ => ⟨false, .resp okBody⟩

/-- Witness for C7: a successful call returns the first choice's
content. -/
theorem simpleRequest_spec_witness :
    SimpleRequest (NewClient "u" "k" "m" []) okEnv "sys" "ask" = (.ok "hi", 1) :=
  (simpleRequest_spec.2.2 (NewClient "u" "k" "m" []) okEnv "sys" "ask" okResp 1 rfl).2
    okChoice [] rfl



/-- A field the loop in `generateObjectSchema` skips entirely: an unexported
field, or a non-anonymous field tagged `json:"-"`. -/
def skippedField (f : GoField) : Prop :=
  f.exported = false ∨ (f.anonymous = false ∧ f.jsonTag = "-")

/-- Helper: the field loop fails with the first visited named field whose
type fails to generate, wrapping that field's Go name, provided each field
before it is skipped or generates successfully — with, for an embedded
field, a `properties` key present in its schema (otherwise the program
panics at the merge and never reaches the failing field). -/
theorem genFields_first_error :
    ∀ (pre : List GoField) (f : GoField) (post : List GoField)
      (props : List (String × Schema)) (reqs : List String) (e : SchemaError),
      (∀ g ∈ pre, skippedField g ∨ ∃ s, generateSchemaForType g.ty = some (.ok s) ∧
        (g.anonymous = true → s.properties.isSome = true)) →
      f.exported = true → f.anonymous = false → f.jsonTag ≠ "-" →
      generateSchemaForType f.ty = some (.error e) →
      genFields (pre ++ f :: post) props reqs = some (.error (.fieldError f.name e)) := by
  intro pre
  induction pre with
  | nil =>
    intro f post props reqs e _ hex han htag herr
    cases f with
    | mk name ex an jt st ty =>
      simp only [GoField.exported] at hex
      simp only [GoField.anonymous] at han
      simp only [GoField.jsonTag] at htag
      simp only [GoField.ty] at herr
      subst hex; subst han
      simp [genFields, htag, herr, GoField.name]
  | cons g pre ih =>
    intro f post props reqs e hpre hex han htag herr
    have hg := hpre g (List.mem_cons_self g pre)
    have hpre' : ∀ g' ∈ pre, skippedField g' ∨ ∃ s, generateSchemaForType g'.ty = some (.ok s) ∧
        (g'.anonymous = true → s.properties.isSome = true) :=
      fun g' hm => hpre g' (List.mem_cons_of_mem g hm)
    cases g with
    | mk gname gex gan gjt gst gty =>
      cases gex with
      | false =>
        simpa [genFields] using ih f post props reqs e hpre' hex han htag herr
      | true =>
        cases gan with
        | true =>
          have hok : ∃ s, generateSchemaForType gty = some (.ok s) ∧
              s.properties.isSome = true := by
            rcases hg with (hue | ⟨hna, _⟩) | ⟨s, hs, hp⟩
            · exact absurd hue (by simp [GoField.exported])
            · exact absurd hna (by simp [GoField.anonymous])
            · exact ⟨s, hs, hp rfl⟩
          obtain ⟨s, hs, hp⟩ := hok
          obtain ⟨ps, hps⟩ := Option.isSome_iff_exists.mp hp
          simpa [genFields, hs, hps] using
            ih f post _ _ e hpre' hex han htag herr
        | false =>
          by_cases hgjt : gjt = "-"
          · subst hgjt
            simpa [genFields] using ih f post props reqs e hpre' hex han htag herr
          · have hok : ∃ s, generateSchemaForType gty = some (.ok s) := by
              rcases hg with (hue | ⟨_, htg⟩) | ⟨s, hs, _⟩
              · exact absurd hue (by simp [GoField.exported])
              · exact absurd htg (by simpa [GoField.jsonTag] using hgjt)
              · exact ⟨s, hs⟩
            obtain ⟨s, hs⟩ := hok
            simpa [genFields, hgjt, hs] using
              ih f post _ _ e hpre' hex han htag herr

/-- C9 (amended): the unsupported kinds (map, func, chan, interface) fail
schema generation naming the kind; a struct whose visited, non-anonymous
field's type fails to generate (in particular, one of unsupported kind,
at any depth) fails with an error naming that field, provided each
preceding field is skipped or generates successfully (with, for an
embedded field, a `properties` key in its schema — an embedded field of
non-struct kind makes the program panic at the properties merge before any
later field is reached); and `RequestWithSchema` returns the
schema-generation error after zero network calls.  (Unexported or
`json:"-"` fields are skipped entirely and cause no failure — see the
counterexample.) -/
theorem schema_unsupported_field_error :
    (generateSchemaForType .mapT = some (.error (.unsupported "map")) ∧
     generateSchemaForType .funcT = some (.error (.unsupported "func")) ∧
     generateSchemaForType .chanT = some (.error (.unsupported "chan")) ∧
     generateSchemaForType .interfaceT = some (.error (.unsupported "interface"))) ∧
    (∀ (pre : List GoField) (f : GoField) (post : List GoField) (e : SchemaError),
      (∀ g ∈ pre, skippedField g ∨ ∃ s, generateSchemaForType g.ty = some (.ok s) ∧
        (g.anonymous = true → s.properties.isSome = true)) →
      f.exported = true → f.anonymous = false → f.jsonTag ≠ "-" →
      generateSchemaForType f.ty = some (.error e) →
      generateSchemaForType (.structT (pre ++ f :: post)) =
        some (.error (.fieldError f.name e))) ∧
    (∀ (c : Client) (env : ChatRequest → Nat → Step) (systemPrompt userPrompt : String)
        (target : GoType) (unmarshalOk : String → Bool) (e : SchemaError),
      GenerateSchema target = some (.error e) →
      RequestWithSchema c env systemPrompt userPrompt target unmarshalOk =
        some (.error (.schemaGen e), 0)) := by
  refine ⟨⟨by simp [generateSchemaForType, kindName],
           by simp [generateSchemaForType, kindName],
           by simp [generateSchemaForType, kindName],
           by simp [generateSchemaForType, kindName]⟩, ?_, ?_⟩
  · intro pre f post e hpre hex han htag herr
    have h := genFields_first_error pre f post [] [] e hpre hex han htag herr
    simp [generateSchemaForType, generateObjectSchema, h]
  · intro c env sp up target u e h
    simp [RequestWithSchema, h]

/-- C9 counterexample: a struct containing an unexported map-typed field —
an unsupported kind in its type graph — generates successfully, because
unexported fields are skipped; this contradicts the claim's "anywhere in
its type graph". -/
theorem schema_skipped_unsupported_cex :
    generateSchemaForType (.structT
        [.mk "hidden" false false "" "" .mapT,
         .mk "Name" true false "name" "" .stringT]) =
      some (.ok (.mk "object" (some [("name", .mk "string" none none none none)]) none
            (some ["name"]) none)) := by
  simp [generateSchemaForType, generateObjectSchema, genFields, tagName, tagParts,
        tagHasOmitempty, splitOnChar, parseSchemaTag, findTagValue, dropLeading, upsert]

/-- Witness for C9's amended theorem: `RequestWithSchema` on a struct with
an exported map-typed field `Data` returns the field-naming schema error
with zero network calls. -/
theorem schema_unsupported_field_error_witness :
    RequestWithSchema (NewClient "u" "k" "m" []) okEnv "s" "u"
        (.structT [.mk "Data" true false "data" "" .mapT]) (fun _ => true) =
      some (.error (.schemaGen (.fieldError "Data" (.unsupported "map"))), 0) :=
  schema_unsupported_field_error.2.2 _ _ _ _ _ _ _ (by
    simp [GenerateSchema, derefOnce, generateSchemaForType, generateObjectSchema,
          genFields, tagName, tagParts, tagHasOmitempty, splitOnChar, kindName])

/-- The external names the field loop marks required, in order: for each
field, its `json`-tag name unless the tag carries `omitempty`.  (Meaningful
for lists of visited, non-anonymous fields.) -/
def requiredNames (fs : List GoField) : List String :=
  fs.filterMap fun f =>
    if tagHasOmitempty f.jsonTag then none else some (tagName f.jsonTag f.name)

/-- Helper: on a list of visited, non-anonymous fields, a successful field
loop extends the `requiredFields` accumulator with exactly the
`requiredNames` of the list. -/
theorem genFields_ok_required :
    ∀ (fs : List GoField) (props : List (String × Schema)) (reqs : List String)
      (res : List (String × Schema) × List String),
      (∀ f ∈ fs, f.exported = true ∧ f.anonymous = false ∧ f.jsonTag ≠ "-") →
      genFields fs props reqs = some (.ok res) →
      res.2 = reqs ++ requiredNames fs := by
  intro fs
  induction fs with
  | nil =>
    intro props reqs res _ h
    simp only [genFields] at h
    cases h
    simp [requiredNames]
  | cons f rest ih =>
    intro props reqs res hvis h
    obtain ⟨hex, han, htag⟩ := hvis f (List.mem_cons_self f rest)
    have hvis' : ∀ g ∈ rest, g.exported = true ∧ g.anonymous = false ∧ g.jsonTag ≠ "-" :=
      fun g hm => hvis g (List.mem_cons_of_mem f hm)
    cases f with
    | mk name ex an jt st ty =>
      simp only [GoField.exported] at hex
      simp only [GoField.anonymous] at han
      simp only [GoField.jsonTag] at htag
      subst hex; subst han
      cases hgen : generateSchemaForType ty with
      | none =>
        simp [genFields, htag, hgen] at h
      | some r =>
        cases r with
        | error e =>
          simp [genFields, htag, hgen] at h
        | ok s =>
          simp only [genFields, Bool.not_true, Bool.false_eq_true, if_false,
            if_neg htag, hgen] at h
          have hrec := ih _ _ _ hvis' h
          rw [hrec]
          by_cases ho : tagHasOmitempty jt
          · simp [requiredNames, ho, GoField.jsonTag]
          · simp [requiredNames, ho, GoField.jsonTag, GoField.name, tagName]

/-- C8: generation on a struct with `Name string` (tag `name`) and
`Age int` (tag `age,omitempty`) yields an object schema mapping `name` to
a string node and `age` to an integer node with required list exactly
`["name"]`; and in general, over structs of visited non-anonymous fields,
a field is excluded from `required` iff its tag carries `omitempty` (the
required list is exactly the tag names of the non-`omitempty` fields, in
order), with the `required` key present iff that list is non-empty. -/
theorem schema_name_age_required :
    (generateSchemaForType (.structT
        [.mk "Name" true false "name" "" .stringT,
         .mk "Age" true false "age,omitempty" "" .intT]) =
      some (.ok (.mk "object"
            (some [("name", .mk "string" none none none none),
                   ("age", .mk "integer" none none none none)])
            none (some ["name"]) none))) ∧
    (∀ (fs : List GoField) (s : Schema),
      (∀ f ∈ fs, f.exported = true ∧ f.anonymous = false ∧ f.jsonTag ≠ "-") →
      generateObjectSchema fs = some (.ok s) →
      s.required = if requiredNames fs = [] then none else some (requiredNames fs)) := by
  constructor
  · simp [generateSchemaForType, generateObjectSchema, genFields, tagName, tagParts,
          tagHasOmitempty, splitOnChar, parseSchemaTag, findTagValue, dropLeading, upsert]
  · intro fs s hvis h
    rw [generateObjectSchema] at h
    cases hg : genFields fs [] [] with
    | none =>
      rw [hg] at h
      exact Option.noConfusion h
    | some r =>
      cases r with
      | error e =>
        rw [hg] at h
        simp at h
      | ok res =>
        obtain ⟨props, reqs⟩ := res
        rw [hg] at h
        cases h
        have hreq := genFields_ok_required fs [] [] (props, reqs) hvis hg
        simp only [List.nil_append] at hreq
        simp only [Schema.required]
        rw [hreq]
        rcases hrn : requiredNames fs with _ | ⟨a, l⟩ <;> simp [hrn]

/-- Witness for C8's general clause at a one-field struct. -/
theorem schema_name_age_required_witness :
    (Schema.mk "object" (some [("name", Schema.mk "string" none none none none)]) none
        (some ["name"]) none).required =
      (if requiredNames [.mk "Name" true false "name" "" .stringT] = [] then none
       else some (requiredNames [.mk "Name" true false "name" "" .stringT])) :=
  schema_name_age_required.2 [.mk "Name" true false "name" "" .stringT] _
    (by
      intro f hf
      simp only [List.mem_singleton] at hf
      subst hf
      refine ⟨rfl, rfl, by decide⟩)
    (by
      simp [generateObjectSchema, generateSchemaForType, genFields, tagName, tagParts,
            tagHasOmitempty, splitOnChar, parseSchemaTag, findTagValue, dropLeading, upsert])

/-- C10: on any input whose type is not a struct after at most one
top-level pointer dereference — including the otherwise supported string,
integer, boolean and slice kinds — `GenerateSchema` returns the
"expected a struct" error naming the kind, and no schema. -/
theorem generateSchema_nonstruct_error (t : GoType)
    (h : ∀ fs, derefOnce t ≠ .structT fs) :
    GenerateSchema t = some (.error (.notStruct (kindName (derefOnce t)))) := by
  rw [GenerateSchema]
  cases ht : derefOnce t with
  | structT fs => exact absurd ht (h fs)
  | stringT => rfl
  | intT => rfl
  | floatT => rfl
  | boolT => rfl
  | ptrT e => rfl
  | sliceT e => rfl
  | mapT => rfl
  | funcT => rfl
  | chanT => rfl
  | interfaceT => rfl

/-- Witness for C10: a plain string type is rejected. -/
theorem generateSchema_nonstruct_error_witness :
    GenerateSchema .stringT = some (.error (.notStruct "string")) :=
  generateSchema_nonstruct_error .stringT (fun _ h => GoType.noConfusion h)


end LLMClient
